import Mathlib

/-!
Verification of the query-routing and multi-strategy execution engine.

This file gives a shallow embedding of the engine's core components —
the SQL safety validator, the router decision logic, the three pipelines
(Analytics/SQL, Retrieval/RAG, Hybrid), the per-identifier daily rate
limiter and the TTL-bounded conversation memory store — and proves the
behavioural properties claimed for them.

Strings are modelled by Lean `String`/`List Char`; machine details that
the source delegates to the Python runtime (Unicode case mapping, regex
`\s`, `\b` and `\w` classes) are modelled explicitly for the ASCII
fragment the engine manipulates.
-/

/-! ## Character and string primitives -/

/-- Whitespace characters recognised by the regex class `\s` used in
`re.sub(r'\s+', ' ', ...)` (ASCII fragment). -/
def isSpaceChar (c : Char) : Bool :=
  c = ' ' || c = '\t' || c = '\n' || c = '\r' || c = '\x0b' || c = '\x0c'

/-- Word characters of the regex class `\w`, used by the `\b` boundaries in
the keyword scan (ASCII fragment). -/
def isWordChar (c : Char) : Bool :=
  c.isAlphanum || c = '_'

/-- ASCII uppercase of a single character, modelling `str.upper()` on the
ASCII fragment. -/
def asciiUpper (c : Char) : Char :=
  match c with
  | 'a' => 'A' | 'b' => 'B' | 'c' => 'C' | 'd' => 'D' | 'e' => 'E'
  | 'f' => 'F' | 'g' => 'G' | 'h' => 'H' | 'i' => 'I' | 'j' => 'J'
  | 'k' => 'K' | 'l' => 'L' | 'm' => 'M' | 'n' => 'N' | 'o' => 'O'
  | 'p' => 'P' | 'q' => 'Q' | 'r' => 'R' | 's' => 'S' | 't' => 'T'
  | 'u' => 'U' | 'v' => 'V' | 'w' => 'W' | 'x' => 'X' | 'y' => 'Y'
  | 'z' => 'Z' | other => other

/-- ASCII lowercase of a single character, modelling `str.lower()` on the
ASCII fragment. -/
def asciiLower (c : Char) : Char :=
  match c with
  | 'A' => 'a' | 'B' => 'b' | 'C' => 'c' | 'D' => 'd' | 'E' => 'e'
  | 'F' => 'f' | 'G' => 'g' | 'H' => 'h' | 'I' => 'i' | 'J' => 'j'
  | 'K' => 'k' | 'L' => 'l' | 'M' => 'm' | 'N' => 'n' | 'O' => 'o'
  | 'P' => 'p' | 'Q' => 'q' | 'R' => 'r' | 'S' => 's' | 'T' => 't'
  | 'U' => 'u' | 'V' => 'v' | 'W' => 'w' | 'X' => 'x' | 'Y' => 'y'
  | 'Z' => 'z' | other => other

/-- Models `str.strip()`: drop whitespace from both ends. -/
def stripChars (l : List Char) : List Char :=
  ((l.dropWhile isSpaceChar).reverse.dropWhile isSpaceChar).reverse

/-- Auxiliary for whitespace collapsing: the flag records whether the
previous emitted character was (the replacement of) whitespace. -/
def collapseWsAux : List Char → Bool → List Char
  | [], _ => []
  | c :: cs, prevSpace =>
    if isSpaceChar c then
      if prevSpace then collapseWsAux cs true
      else ' ' :: collapseWsAux cs true
    else c :: collapseWsAux cs false

/-- Models `re.sub(r'\s+', ' ', ...)`: replace every maximal whitespace run by a
single space. -/
def collapseWs (l : List Char) : List Char :=
  collapseWsAux l false

/-- Lowercase a whole string (`str.lower()`). -/
def lowerStr (s : String) : String :=
  String.mk (s.data.map asciiLower)

/-- Python substring membership `needle in haystack`. -/
def containsSubstr (needle haystack : String) : Bool :=
  (List.range (haystack.data.length + 1)).any fun i =>
    needle.data.isPrefixOf (haystack.data.drop i)

/-- Occurrence of `kw` as a regex "whole word": some decomposition
`s = pre ++ kw ++ post` where the adjacent characters on both sides are
not word characters (`\b kw \b`). -/
def hasWholeWord (kw s : List Char) : Bool :=
  (List.range (s.length + 1)).any fun i =>
    kw.isPrefixOf (s.drop i) &&
    (i = 0 || !isWordChar ((s.take i).getLastD ' ')) &&
    (((s.drop i).drop kw.length).isEmpty || !isWordChar (((s.drop i).drop kw.length).headD ' '))

/-! ## SQL safety validator (`_validate_sql_query` in `core/agent.py`) -/

/-- Forbidden keyword list `_default_dangerous_sql_keywords` from
`config.py` (`settings.dangerous_sql_keywords`). -/
def dangerousSqlKeywords : List String :=
  ["DROP", "DELETE", "UPDATE", "INSERT", "ALTER", "CREATE",
   "TRUNCATE", "EXEC", "EXECUTE", "MERGE", "REPLACE"]

/-- Models `re.sub(r'\s+', ' ', sql_query.upper().strip())`: uppercase, strip,
then collapse whitespace runs. -/
def normalizeSql (s : String) : String :=
  String.mk (collapseWs (stripChars (s.data.map asciiUpper)))

/-- Models `re.sub(r'--.*?$', '', normalized, flags=re.MULTILINE)` applied to the
normalized text.  Normalization has already replaced every newline by a
space, so the text is a single line and the substitution removes
everything from the first `--` to the end of the string. -/
def dropLineComment : List Char → List Char
  | [] => []
  | '-' :: '-' :: _ => []
  | c :: cs => c :: dropLineComment cs

/-- Single left-to-right scan implementing
`re.sub(r'/\*.*?\*/', '', ..., flags=re.DOTALL)`.  Outside a comment
(`pending = none`), `/*` opens a candidate match; inside, the consumed
text is kept (reversed) in `pending` until the nearest `*/` closes the
non-greedy match and the pending text is discarded.  An unclosed `/*`
never matches the regex, so at the end of input the pending text is
restored verbatim (it cannot contain a later match: it contains no
closing marker at all). -/
def dropBlockAux : List Char → Option (List Char) → List Char
  | [], none => []
  | '/' :: '*' :: rest, none => dropBlockAux rest (some ['*', '/'])
  | c :: cs, none => c :: dropBlockAux cs none
  | [], some pending => pending.reverse
  | '*' :: '/' :: rest, some _ => dropBlockAux rest none
  | c :: cs, some pending => dropBlockAux cs (some (c :: pending))

/-- Remove every closed `/* ... */` block (non-greedy, dot matches all). -/
def dropBlockComments (l : List Char) : List Char :=
  dropBlockAux l none

/-- First forbidden keyword (in list order) occurring as a whole word in
the normalized query, mirroring the `for keyword in
settings.dangerous_sql_keywords` scan. -/
def firstForbidden (normalized : String) : Option String :=
  dangerousSqlKeywords.find? fun kw => hasWholeWord kw.data normalized.data

/-- Models `_validate_sql_query` (`core/agent.py`): returns
`(is_valid, error_message)`.  Rules in source order: empty/whitespace-only
input is rejected; then the whitespace/case-normalized text is scanned for
forbidden keywords as whole words; then line and block comments are
stripped from the normalized text and the remainder (re-stripped) must
start with `SELECT`. -/
def validateSqlQuery (sqlQuery : String) : Bool × String :=
  if (stripChars sqlQuery.data).isEmpty then
    (false, "SQL query cannot be empty")
  else
    let normalized := normalizeSql sqlQuery
    match firstForbidden normalized with
    | some kw => (false, "SQL query contains forbidden operation: " ++ kw)
    | none =>
      let noComments :=
        stripChars (dropBlockComments (dropLineComment normalized.data))
      if "SELECT".data.isPrefixOf noComments then (true, "")
      else (false, "SQL query must be a SELECT statement only")







/-! ## Router (`_looks_structured`, `_looks_documentary`, `_decide_route`) -/

/-- Models `_default_sql_keywords` from `config.py` (`settings.sql_keywords`). -/
def sqlKeywords : List String :=
  ["sales", "revenue", "quantity", "count", "sum", "average", "table",
   "query", "sql", "fact", "dim", "month", "year", "country", "model",
   "analytics", "report"]

/-- Models `_default_doc_keywords` from `config.py` (`settings.doc_keywords`). -/
def docKeywords : List String :=
  ["manual", "warranty", "contract", "policy", "appendix",
   "instructions", "procedure"]

/-- Uppercase a whole string (`str.upper()`). -/
def upperStr (s : String) : String :=
  String.mk (s.data.map asciiUpper)

/-- Models `str.strip()` on a whole string. -/
def stripStr (s : String) : String :=
  String.mk (stripChars s.data)

/-- Models `_looks_structured`: SQL syntax fragments as whole words
(`\bselect\b|\bfrom\b|\bwhere\b|\bgroup by\b`) or any configured SQL
keyword as a substring, on the lowercased question. -/
def looksStructured (question : String) : Bool :=
  let lowered := lowerStr question
  (hasWholeWord "select".data lowered.data || hasWholeWord "from".data lowered.data ||
   hasWholeWord "where".data lowered.data || hasWholeWord "group by".data lowered.data) ||
  sqlKeywords.any fun keyword => containsSubstr keyword lowered

/-- Models `_looks_documentary`: any configured document keyword as a substring of
the lowercased question. -/
def looksDocumentary (question : String) : Bool :=
  docKeywords.any fun keyword => containsSubstr keyword (lowerStr question)

/-- The three executable routes (`SQL_ROUTE`, `RAG_ROUTE`, `HYBRID_ROUTE`);
`_decide_route` returning Python `None` is modelled by `Option.none`. -/
inductive Route where
  | SQL
  | RAG
  | HYBRID
deriving DecidableEq, Repr

/-- Models `_decide_route` (`core/agent.py`) as a function of the question and
the classifier reply text (`response.content`): the reply is stripped and
uppercased, explicit choices take precedence in the order
BOTH/HYBRID, SQL, RAG, NONE, and only an unparseable reply falls back to
the two heuristic signals. -/
def decideRoute (question : String) (replyContent : String) : Option Route :=
  let structured := looksStructured question
  let documentary := looksDocumentary question
  let choice := upperStr (stripStr replyContent)
  if containsSubstr "BOTH" choice || containsSubstr "HYBRID" choice then some Route.HYBRID
  else if containsSubstr "SQL" choice then some Route.SQL
  else if containsSubstr "RAG" choice then some Route.RAG
  else if containsSubstr "NONE" choice then none
  else if structured && documentary then some Route.HYBRID
  else if structured then some Route.SQL
  else if documentary then some Route.RAG
  else none




/-! ## Citations and document sanitization
(`_sanitize_document_source`, `_build_citations`, `_format_docs_for_prompt`) -/

/-- Metadata of a retrieved document (`doc.metadata`): the keys consulted
by the core, each possibly absent. -/
structure DocMetadata where
  source : Option String
  sourceDocument : Option String
  filePath : Option String
  page : Option Int
deriving DecidableEq, Repr

/-- A retrieved document (`doc` from the similarity search). -/
structure Doc where
  pageContent : String
  metadata : DocMetadata
deriving DecidableEq, Repr

/-- A citation entry as produced by `_build_citations`. -/
structure Citation where
  sourceDocument : String
  page : Option Int
  content : String
deriving DecidableEq, Repr

/-- Python truthiness chain `a or b or c or ""` over optional strings:
the first present, non-empty value, else `""`. -/
def firstTruthy : List (Option String) → String
  | [] => ""
  | some s :: rest => if s = "" then firstTruthy rest else s
  | none :: rest => firstTruthy rest

/-- Models `_sanitize_document_source`: map a raw source string to a generic
document-category label by (case-insensitive) keyword containment, with
the source's `if/elif` precedence. -/
def sanitizeDocumentSource (source : String) : String :=
  let sourceLower := lowerStr source
  if containsSubstr "contract" sourceLower then "Contract Document"
  else if containsSubstr "manual" sourceLower || containsSubstr "rav4" sourceLower ||
          containsSubstr "yaris" sourceLower then "Manual Document"
  else if containsSubstr "warranty" sourceLower || containsSubstr "policy" sourceLower then
    "Policy Document"
  else if containsSubstr "appendix" sourceLower then "Policy Appendix"
  else "Document"

/-- Models `str(metadata.get("source") or metadata.get("source_document") or
metadata.get("file_path") or "")` in `_build_citations`. -/
def rawSourceOf (m : DocMetadata) : String :=
  firstTruthy [m.source, m.sourceDocument, m.filePath]

/-- Models `_build_citations`: one citation per retrieved document, with the raw
source replaced by its sanitized category label. -/
def buildCitations (docs : List Doc) : List Citation :=
  docs.map fun doc =>
    let rawSource := rawSourceOf doc.metadata
    let sanitizedSource := if rawSource = "" then "Document" else sanitizeDocumentSource rawSource
    { sourceDocument := sanitizedSource
      page := doc.metadata.page
      content := doc.pageContent }

/-- Models `str.join` with a separator. -/
def joinWith (sep : String) : List String → String
  | [] => ""
  | [x] => x
  | x :: y :: rest => x ++ sep ++ joinWith sep (y :: rest)

/-- Models `s[:n]` truncation used for trace entries. -/
def takeStr (n : Nat) (s : String) : String :=
  String.mk (s.data.take n)

/-- Sections of `_format_docs_for_prompt`, enumerating documents from 1:
a `[Document i] Source: <label>` header (with optional page) above the
passage text. -/
def docSections : Nat → List Doc → List String
  | _, [] => []
  | idx, doc :: rest =>
    let rawSource := firstTruthy [doc.metadata.source, doc.metadata.sourceDocument]
    let rawSource := if rawSource = "" then "unknown" else rawSource
    let source := sanitizeDocumentSource rawSource
    let header := "[Document " ++ toString idx ++ "] Source: " ++ source
    let header :=
      match doc.metadata.page with
      | some page => header ++ " | Page: " ++ toString page
      | none => header
    (header ++ "\n" ++ doc.pageContent) :: docSections (idx + 1) rest

/-- Models `_format_docs_for_prompt`: join the sections with blank lines. -/
def formatDocsForPrompt (docs : List Doc) : String :=
  joinWith "\n\n" (docSections 1 docs)

/-! ## JSON rendering of citations (`json.dumps(citations, ensure_ascii=False)`),
modelled with quote/backslash escaping; it only feeds a truncated trace
entry and no claim depends on its exact text. -/

/-- Escape quotes and backslashes inside a JSON string body. -/
def jsonEscapeChars : List Char → List Char
  | [] => []
  | c :: cs => (if c = '"' ∨ c = '\\' then ['\\', c] else [c]) ++ jsonEscapeChars cs

/-- A JSON string literal. -/
def jsonStr (s : String) : String :=
  "\"" ++ String.mk (jsonEscapeChars s.data) ++ "\""

/-- A JSON page value (`null` when absent). -/
def jsonOfPage : Option Int → String
  | none => "null"
  | some page => toString page

/-- One citation object. -/
def citationJson (c : Citation) : String :=
  "\x7b\"source_document\": " ++ jsonStr c.sourceDocument ++
  ", \"page\": " ++ jsonOfPage c.page ++
  ", \"content\": " ++ jsonStr c.content ++ "\x7d"

/-- The citation list. -/
def citationsJson (cs : List Citation) : String :=
  "[" ++ joinWith ", " (cs.map citationJson) ++ "]"

/-! ## Retrieval (RAG) pipeline (`_run_rag_pipeline`) -/

/-- The deterministic part of a RAG pipeline run: citations, trace and the
formatted context block (`_context`).  The synthesized `output` text comes
from an external LLM call and is not modelled. -/
structure RagPipelineResult where
  citations : List Citation
  toolTrace : List String
  context : String
deriving DecidableEq, Repr

/-- Models `_run_rag_pipeline` restricted to its deterministic content, as a
function of the question and the retrieved documents. -/
def runRagPipeline (question : String) (docs : List Doc) : RagPipelineResult :=
  let citations := buildCitations docs
  let context := if docs.isEmpty then "" else formatDocsForPrompt docs
  let toolOutput := citationsJson citations
  { citations := citations
    toolTrace :=
      ["Route selected: RAG",
       "Tool: knowledge_base_search | input: " ++ question,
       "Output: " ++ takeStr 200 toolOutput]
    context := context }

/-! ## Analytics (SQL) pipeline (`_run_sql_pipeline`) -/

/-- Models `str.split(marker, 1)[0]`: the prefix of the text before the first
occurrence of `marker` (the whole text if `marker` does not occur). -/
def takeUntilMarker (marker : List Char) : List Char → List Char
  | [] => []
  | c :: cs => if marker.isPrefixOf (c :: cs) then [] else c :: takeUntilMarker marker cs

/-- Characters removed by `strip("`\n")` when unwrapping a code fence. -/
def isFenceChar (c : Char) : Bool :=
  c = '\x60' || c = '\n'

/-- Code-fence post-processing of the generated reply: strip whitespace;
if the text starts with a triple backtick, strip backticks/newlines from
both ends; if an embedded closing fence remains, cut before it. -/
def postprocessGeneratedSql (content : String) : String :=
  let generatedSql := String.mk (stripChars content.data)
  let generatedSql :=
    if "\x60\x60\x60".data.isPrefixOf generatedSql.data then
      String.mk (((generatedSql.data.dropWhile isFenceChar).reverse.dropWhile isFenceChar).reverse)
    else generatedSql
  if containsSubstr "\n\x60\x60\x60" generatedSql then
    String.mk (takeUntilMarker "\n\x60\x60\x60".data generatedSql.data)
  else generatedSql

/-- The deterministic part of a SQL pipeline run.  `rowsRepr` is the
"result" text fed to the synthesis call; `dbInvoked` records whether the
relational store was asked to execute the query. -/
structure SqlPipelineResult where
  sqlQuery : String
  citations : List Citation
  toolTrace : List String
  rowsRepr : String
  dbInvoked : Bool
deriving DecidableEq, Repr

/-- Models `_run_sql_pipeline` restricted to its deterministic content, as a
function of the generation reply and of what executing the query against
the store would yield (`db.run` returning rows or raising). -/
def runSqlPipeline (genContent : String) (dbRun : Except String String) : SqlPipelineResult :=
  let generatedSql := postprocessGeneratedSql genContent
  let trace0 := ["Route selected: SQL", "Generated SQL:\n" ++ generatedSql]
  let v := validateSqlQuery generatedSql
  if v.1 then
    match dbRun with
    | Except.ok rows =>
      { sqlQuery := generatedSql
        citations := []
        toolTrace := trace0 ++ ["SQL execution output: " ++ takeStr 200 rows]
        rowsRepr := rows
        dbInvoked := true }
    | Except.error exc =>
      { sqlQuery := generatedSql
        citations := []
        toolTrace := trace0 ++ ["SQL execution failed: " ++ exc]
        rowsRepr := "SQL execution failed: " ++ exc
        dbInvoked := true }
  else
    let errorMessage := "SQL query validation failed: " ++ v.2
    { sqlQuery := generatedSql
      citations := []
      toolTrace := trace0 ++ [errorMessage]
      rowsRepr := errorMessage
      dbInvoked := false }

/-! ## Hybrid pipeline (`_run_hybrid_pipeline`) -/

/-- Result object of a hybrid run (`sql_query` from the Analytics leg,
`citations` from the Retrieval leg, merged trace). -/
structure HybridResult where
  sqlQuery : Option String
  citations : List Citation
  toolTrace : List String
deriving DecidableEq, Repr

/-- The merge step of `_run_hybrid_pipeline`: split-decision entries,
then both legs' traces in leg order, then the closing synthesis entry;
citations inherited from the Retrieval leg only and `sql_query` from the
Analytics leg only. -/
def mergeHybrid (sqlQuestion ragQuestion : String)
    (sqlResult : SqlPipelineResult) (ragResult : RagPipelineResult) : HybridResult :=
  { sqlQuery := some sqlResult.sqlQuery
    citations := ragResult.citations
    toolTrace :=
      ["Router decision: HYBRID",
       "Hybrid split -> SQL question: " ++ sqlQuestion,
       "Hybrid split -> RAG question: " ++ ragQuestion]
      ++ sqlResult.toolTrace ++ ragResult.toolTrace
      ++ ["Hybrid synthesis completed"] }

/-- Models `_run_hybrid_pipeline` restricted to its deterministic content:
`splitSql`/`splitRag` are the parsed sub-questions from the splitting
call (empty on parse failure, in which case the original question is used
for that leg); the Analytics leg consumes the generation reply and the
store outcome, the Retrieval leg the retrieved documents. -/
def runHybridPipeline (question splitSql splitRag : String)
    (genContent : String) (dbRun : Except String String) (docs : List Doc) : HybridResult :=
  let sqlQuestion := if splitSql = "" then question else splitSql
  let ragQuestion := if splitRag = "" then question else splitRag
  let sqlResult := runSqlPipeline genContent dbRun
  let ragResult := runRagPipeline ragQuestion docs
  mergeHybrid sqlQuestion ragQuestion sqlResult ragResult

/-! ## Failure propagation (`run_agent`, `asyncio.gather` fan-in)

External LLM-service calls can raise; an awaited exception propagates.
This is modelled in the `Except` monad: each external outcome is an
`Except String` value and a failing bind aborts the computation. -/

/-- Models `asyncio.gather` over two tasks with `return_exceptions=False`: both
results, or the failure of a failing leg. -/
def gatherTwo {ε α β : Type} (a : Except ε α) (b : Except ε β) : Except ε (α × β) := do
  let x ← a
  let y ← b
  pure (x, y)

/-- Models `_run_hybrid_pipeline` with fallible legs: the fan-in join
(`asyncio.gather`) must yield both legs before the merge runs. -/
def runHybridPipelineE (sqlQuestion ragQuestion : String)
    (sqlLeg : Except String SqlPipelineResult)
    (ragLeg : Except String RagPipelineResult) : Except String HybridResult := do
  let (sqlResult, ragResult) ← gatherTwo sqlLeg ragLeg
  pure (mergeHybrid sqlQuestion ragQuestion sqlResult ragResult)

/-- The shape of `run_agent`'s result dictionary (the synthesized
`output` text is external and not modelled). -/
structure AgentResult where
  route : String
  sqlQuery : Option String
  citations : List Citation
  toolTrace : List String
deriving DecidableEq, Repr

/-- Models `_decide_route` with a fallible classification call: the reply must be
obtained before any resolution happens. -/
def decideRouteE (question : String) (routeReply : Except String String) :
    Except String (Option Route) := do
  let reply ← routeReply
  pure (decideRoute question reply)

/-- Models `run_agent` with fallible external calls: decide the route, then
dispatch to the corresponding pipeline outcome; a `None` route yields the
fixed insufficient-context result.  The SQL and RAG branches insert the
`Router decision` entry at the front of the pipeline trace. -/
def runAgentE (question : String) (routeReply : Except String String)
    (sqlOutcome : Except String SqlPipelineResult)
    (ragOutcome : Except String RagPipelineResult)
    (hybridOutcome : Except String HybridResult) : Except String AgentResult := do
  let route ← decideRouteE question routeReply
  match route with
  | some Route.SQL => do
    let sqlResult ← sqlOutcome
    pure { route := "SQL"
           sqlQuery := some sqlResult.sqlQuery
           citations := sqlResult.citations
           toolTrace := "Router decision: SQL" :: sqlResult.toolTrace }
  | some Route.HYBRID => do
    let hybridResult ← hybridOutcome
    pure { route := "HYBRID"
           sqlQuery := hybridResult.sqlQuery
           citations := hybridResult.citations
           toolTrace := hybridResult.toolTrace }
  | some Route.RAG => do
    let ragResult ← ragOutcome
    pure { route := "RAG"
           sqlQuery := none
           citations := ragResult.citations
           toolTrace := "Router decision: RAG" :: ragResult.toolTrace }
  | none =>
    pure { route := "UNKNOWN"
           sqlQuery := none
           citations := []
           toolTrace := ["Router decision: INSUFFICIENT CONTEXT"] }

/-! ## Rate limiter (`core/rate_limit.py`, `infrastructure/rate_limit_db.py`)

The persistent counter store is a table of rows unique per
`(identifier, date)`; dates and timestamps are opaque strings (ISO
format in the source). -/

/-- One row of the `rate_limit` table. -/
structure RateLimitRecord where
  identifier : String
  date : String
  interactionCount : Nat
  lastInteractionAt : String
deriving DecidableEq, Repr

/-- The `rate_limit` table. -/
abbrev RateLimitStore := List RateLimitRecord

/-- The `WHERE identifier = ? AND date = ?` row filter. -/
def recordMatches (identifier today : String) (r : RateLimitRecord) : Bool :=
  r.identifier = identifier && r.date = today

/-- Models `get_daily_interaction_count`: the stored count for `(identifier,
today)`, or 0 if no record exists. -/
def getDailyInteractionCount (store : RateLimitStore) (identifier today : String) : Nat :=
  match store.find? (recordMatches identifier today) with
  | some r => r.interactionCount
  | none => 0

/-- Models `increment_interaction_count`: upsert today's record — insert it with
count 1 if absent, else increment its count — stamping
`last_interaction_at`, and return the stored count re-read after the
update. -/
def incrementInteractionCount (store : RateLimitStore) (identifier today now : String) :
    RateLimitStore × Nat :=
  let store' :=
    if (store.find? (recordMatches identifier today)).isSome then
      store.map fun r =>
        if recordMatches identifier today r then
          { r with interactionCount := r.interactionCount + 1, lastInteractionAt := now }
        else r
    else
      store ++ [⟨identifier, today, 1, now⟩]
  (store', getDailyInteractionCount store' identifier today)

/-- The payload of the `RateLimitExceeded` exception. -/
structure RateLimitExceeded where
  identifier : String
  currentCount : Nat
  limit : Nat
deriving DecidableEq, Repr

/-- Models `check_rate_limit`: raises (returns `some` exception) exactly when
today's count has reached the daily limit. -/
def checkRateLimit (store : RateLimitStore) (identifier today : String) (dailyLimit : Nat) :
    Option RateLimitExceeded :=
  let currentCount := getDailyInteractionCount store identifier today
  if currentCount ≥ dailyLimit then some ⟨identifier, currentCount, dailyLimit⟩ else none

/-- Models `reset_daily_count` with an identifier: zero the count of today's
record for that identifier only, returning the number of affected rows. -/
def resetDailyCount (store : RateLimitStore) (identifier today : String) :
    RateLimitStore × Nat :=
  ((store.map fun r =>
      if recordMatches identifier today r then { r with interactionCount := 0 } else r),
   (store.filter (recordMatches identifier today)).length)

/-- Models `record_interaction` iterated `n` times for the same identifier and
date. -/
def recordN (store : RateLimitStore) (identifier today now : String) : Nat → RateLimitStore
  | 0 => store
  | n + 1 => (incrementInteractionCount (recordN store identifier today now n) identifier today now).1

/-! ## Conversation memory (`core/conversation_memory.py`)

Timestamps are integers (`time.time()` values); the TTL is the configured
`settings.session_ttl_seconds`. -/

/-- Models `answer.split('.')[0] if answer else ""`: the first element of a
Python `split` on a one-character separator is exactly the longest prefix
containing no separator. -/
def answerPreview (answer : String) : String :=
  if answer = "" then "" else String.mk (answer.data.takeWhile (· != '.'))

/-- The three transcript lines appended for the `idx`-th exchange in
`ConversationHistory.format_for_prompt`. -/
def exchangeLines (idx : Nat) (question answer : String) : List String :=
  ["\n[Exchange " ++ toString idx ++ "]",
   "User: " ++ question,
   "Assistant: " ++ answerPreview answer]

/-- The `for idx, (question, answer) in enumerate(history, 1)` loop. -/
def renderExchanges : Nat → List (String × String) → List String
  | _, [] => []
  | idx, (question, answer) :: rest =>
    exchangeLines idx question answer ++ renderExchanges (idx + 1) rest

/-- The fixed disambiguation lines closing the transcript. -/
def contextRules : List String :=
  ["\n=== CONTEXT RULES ===",
   "When the user asks follow-up questions:",
   "- If they change ONE aspect (e.g., \x27what about 2023\x27), KEEP all other filters from previous questions",
   "- If they add a filter (e.g., \x27but only Toyota\x27), COMBINE it with filters from previous questions",
   "- Example: Previous=\x27Toyota sales in 2022\x27, Current=\x27what about 2023\x27 → Use: brand=\x27Toyota\x27 AND year=2023",
   "=== END CONTEXT ===\n"]

/-- Models `list(messages)[-max_pairs:]`; Python's `[-n:]` with `n = 0` is the
whole list. -/
def lastPairs (maxPairs : Nat) (l : List (String × String)) : List (String × String) :=
  if maxPairs = 0 then l else l.drop (l.length - maxPairs)

/-- A `ConversationHistory` object. -/
structure ConversationHistory where
  sessionId : String
  createdAt : Int
  messages : List (String × String)
deriving DecidableEq, Repr

/-- Models `ConversationHistory.add_exchange`. -/
def ConversationHistory.addExchange (h : ConversationHistory) (question answer : String) :
    ConversationHistory :=
  { h with messages := h.messages ++ [(question, answer)] }

/-- Models `ConversationHistory.get_history`. -/
def ConversationHistory.getHistory (h : ConversationHistory) (maxPairs : Nat) :
    List (String × String) :=
  lastPairs maxPairs h.messages

/-- Models `ConversationHistory.format_for_prompt`: empty for an empty history,
else the header line, the rendered exchanges and the fixed context rules,
joined with newlines. -/
def ConversationHistory.formatForPrompt (h : ConversationHistory) (maxPairs : Nat) : String :=
  let history := h.getHistory maxPairs
  if history.isEmpty then ""
  else
    joinWith "\n"
      (["=== PREVIOUS CONVERSATION CONTEXT ==="]
       ++ renderExchanges 1 history
       ++ contextRules)

/-- The module-level `_conversation_store` dictionary. -/
abbrev ConversationStore := List (String × ConversationHistory)

/-- Dictionary lookup `_conversation_store.get(session_id)`. -/
def storeLookup (store : ConversationStore) (sessionId : String) : Option ConversationHistory :=
  (store.find? fun p => p.1 = sessionId).map Prod.snd

/-- Dictionary assignment `_conversation_store[k] = v`. -/
def dictInsert (store : ConversationStore) (k : String) (v : ConversationHistory) :
    ConversationStore :=
  if (store.find? fun p => p.1 = k).isSome then
    store.map fun p => if p.1 = k then (k, v) else p
  else store ++ [(k, v)]

/-- Models `get_or_create_session`: a truthy id that resolves is returned
unchanged; otherwise a new empty session is stored under the supplied id,
or under `freshId` (the generated UUID) when the id is `None` or empty. -/
def getOrCreateSession (store : ConversationStore) (sessionId : Option String)
    (freshId : String) (now : Int) : ConversationStore × String :=
  let sid := sessionId.getD ""
  if sid ≠ "" && (storeLookup store sid).isSome then
    (store, sid)
  else
    let newSessionId := if sid ≠ "" then sid else freshId
    (dictInsert store newSessionId ⟨newSessionId, now, []⟩, newSessionId)

/-- Module-level `add_exchange`: append to the session's history when the
session exists, else do nothing. -/
def addExchangeStore (store : ConversationStore) (sessionId question answer : String) :
    ConversationStore :=
  if (storeLookup store sessionId).isSome then
    store.map fun p =>
      if p.1 = sessionId then (p.1, p.2.addExchange question answer) else p
  else store

/-- Module-level `get_history_for_prompt` (with its default `max_pairs`
of 10). -/
def getHistoryForPrompt (store : ConversationStore) (sessionId : String) : String :=
  match storeLookup store sessionId with
  | none => ""
  | some h => h.formatForPrompt 10

/-- Models `cleanup_expired_sessions`: delete every session whose age strictly
exceeds the TTL and return how many were deleted. -/
def cleanupExpiredSessions (store : ConversationStore) (now ttl : Int) :
    ConversationStore × Nat :=
  let expiredSessions := store.filter fun p => now - p.2.createdAt > ttl
  (store.filter fun p => ¬ (now - p.2.createdAt > ttl), expiredSessions.length)

/-! ## Helper lemmas -/

theorem isSpaceChar_asciiUpper (c : Char) : isSpaceChar (asciiUpper c) = isSpaceChar c := by
  unfold asciiUpper
  split <;> rfl

theorem stripChars_eq_nil_iff (l : List Char) :
    stripChars l = [] ↔ ∀ c ∈ l, isSpaceChar c := by
  unfold stripChars
  rw [List.reverse_eq_nil_iff, List.dropWhile_eq_nil_iff]
  constructor
  · intro h c hc
    rcases List.mem_append.mp ((List.takeWhile_append_dropWhile (p := isSpaceChar) (l := l)) ▸ hc) with h1 | h2
    · exact List.mem_takeWhile_imp h1
    · exact h c (List.mem_reverse.mpr h2)
  · intro h c hc
    have hc' : c ∈ List.dropWhile isSpaceChar l := List.mem_reverse.mp hc
    exact h c ((List.dropWhile_suffix isSpaceChar).subset hc')

theorem hasWholeWord_nil (kw : List Char) (h : kw ≠ []) : hasWholeWord kw [] = false := by
  match kw, h with
  | c :: cs, _ => rfl

theorem normalizeSql_empty_of_strip_nil {sql : String}
    (h : stripChars sql.data = []) : normalizeSql sql = "" := by
  have hall : ∀ c ∈ sql.data, isSpaceChar c := (stripChars_eq_nil_iff _).mp h
  have hall' : ∀ c ∈ sql.data.map asciiUpper, isSpaceChar c := by
    intro c hc
    obtain ⟨d, hd, rfl⟩ := List.mem_map.mp hc
    rw [isSpaceChar_asciiUpper]
    exact hall d hd
  have hnil : stripChars (sql.data.map asciiUpper) = [] :=
    (stripChars_eq_nil_iff _).mpr hall'
  simp [normalizeSql, hnil, collapseWs, collapseWsAux]

/-! ## Claim theorems -/

/-- C1: for every keyword in the configured forbidden set, validating
`"{keyword} TABLE x"` returns `is_valid = false` with a reason naming
that keyword; and in general, any candidate SQL in which some forbidden
keyword appears as a whole word in the whitespace-and-case-normalized
text is rejected with a reason naming a forbidden keyword that so
appears. -/
theorem validator_rejects_forbidden_keywords :
    (∀ kw ∈ dangerousSqlKeywords,
      validateSqlQuery (kw ++ " TABLE x") =
        (false, "SQL query contains forbidden operation: " ++ kw)) ∧
    (∀ sql kw, kw ∈ dangerousSqlKeywords →
      hasWholeWord kw.data (normalizeSql sql).data = true →
      (validateSqlQuery sql).1 = false ∧
      ∃ kw', kw' ∈ dangerousSqlKeywords ∧
        hasWholeWord kw'.data (normalizeSql sql).data = true ∧
        (validateSqlQuery sql).2 = "SQL query contains forbidden operation: " ++ kw') := by
  constructor
  · decide
  · intro sql kw hmem hww
    by_cases hempty : (stripChars sql.data).isEmpty = true
    · exfalso
      have hnil : stripChars sql.data = [] := by simpa using hempty
      have hnorm : normalizeSql sql = "" := normalizeSql_empty_of_strip_nil hnil
      rw [hnorm] at hww
      have hkwne : kw.data ≠ [] := by
        have : ∀ k ∈ dangerousSqlKeywords, k.data ≠ [] := by decide
        exact this kw hmem
      have : hasWholeWord kw.data [] = false := hasWholeWord_nil kw.data hkwne
      simp only [this] at hww
      exact Bool.false_ne_true hww
    · have hsome :
          (dangerousSqlKeywords.find? fun k =>
            hasWholeWord k.data (normalizeSql sql).data).isSome := by
        rw [List.find?_isSome]
        exact ⟨kw, hmem, hww⟩
      obtain ⟨kw', hfind⟩ := Option.isSome_iff_exists.mp hsome
      have hval :
          validateSqlQuery sql =
            (false, "SQL query contains forbidden operation: " ++ kw') := by
        simp [validateSqlQuery, firstForbidden, hempty, hfind]
      refine ⟨by simp [hval], kw', List.mem_of_find?_eq_some hfind, ?_, by simp [hval]⟩
      simpa using List.find?_some hfind

/-- C1 witness: a concrete rejected query obtained from the general
statement. -/
theorem validator_rejects_forbidden_keywords_witness :
    (validateSqlQuery "DELETE FROM FACT_SALES").1 = false :=
  (validator_rejects_forbidden_keywords.2 "DELETE FROM FACT_SALES" "DELETE"
    (by decide) (by decide)).1

/-- C2 counterexample: a query whose leading text is a line comment
followed by a SELECT statement is NOT accepted — whitespace normalization
has already replaced the newline by a space, so the line comment swallows
the SELECT statement and validation fails. -/
theorem line_comment_before_select_rejected :
    validateSqlQuery "-- fetch data\nSELECT 1" =
      (false, "SQL query must be a SELECT statement only") := by decide

/-- C2 (amended): for candidate SQL with no forbidden keyword and not
whitespace-only, the validator strips comments from the
whitespace/case-normalized text — where a line comment extends to the end
of the whole normalized text, newlines having been collapsed — and
accepts iff the stripped remainder starts with `SELECT`; in particular a
leading block comment before SELECT is accepted (as is a trailing line
comment), while a line comment before SELECT causes rejection. -/
theorem validator_comment_stripping :
    (∀ sql : String,
      (stripChars sql.data).isEmpty = false →
      firstForbidden (normalizeSql sql) = none →
      ((validateSqlQuery sql).1 = true ↔
        "SELECT".data.isPrefixOf
          (stripChars (dropBlockComments (dropLineComment (normalizeSql sql).data))) = true)) ∧
    validateSqlQuery "/* intro */ SELECT 1 -- trailing" = (true, "") ∧
    validateSqlQuery "-- leading\nSELECT 1" =
      (false, "SQL query must be a SELECT statement only") := by
  refine ⟨?_, by decide, by decide⟩
  intro sql hne hforb
  simp only [validateSqlQuery, hne, Bool.false_eq_true, if_false, firstForbidden] at *
  rw [hforb]
  by_cases hsel :
      "SELECT".data.isPrefixOf
        (stripChars (dropBlockComments (dropLineComment (normalizeSql sql).data))) = true
  · simp [hsel]
  · simp only [Bool.not_eq_true] at hsel
    simp [hsel]

/-- C2 witness: the general acceptance criterion applied to a concrete
comment-free query. -/
theorem validator_comment_stripping_witness :
    (validateSqlQuery "SELECT year FROM FACT_SALES").1 = true ↔
      "SELECT".data.isPrefixOf
        (stripChars (dropBlockComments (dropLineComment
          (normalizeSql "SELECT year FROM FACT_SALES").data))) = true :=
  validator_comment_stripping.1 "SELECT year FROM FACT_SALES" (by decide) (by decide)

/-- C3: the route decision obeys the reply precedence BOTH/HYBRID, then
SQL, then RAG, then NONE (no heuristic fallback), and only a reply
containing none of the four tokens lets the heuristic signals decide
(both → HYBRID, only structured → SQL, only documentary → RAG, neither →
no route). -/
theorem decide_route_precedence (question reply : String) :
    ((containsSubstr "BOTH" (upperStr (stripStr reply)) = true ∨
      containsSubstr "HYBRID" (upperStr (stripStr reply)) = true) →
      decideRoute question reply = some Route.HYBRID) ∧
    (containsSubstr "BOTH" (upperStr (stripStr reply)) = false →
     containsSubstr "HYBRID" (upperStr (stripStr reply)) = false →
     containsSubstr "SQL" (upperStr (stripStr reply)) = true →
      decideRoute question reply = some Route.SQL) ∧
    (containsSubstr "BOTH" (upperStr (stripStr reply)) = false →
     containsSubstr "HYBRID" (upperStr (stripStr reply)) = false →
     containsSubstr "SQL" (upperStr (stripStr reply)) = false →
     containsSubstr "RAG" (upperStr (stripStr reply)) = true →
      decideRoute question reply = some Route.RAG) ∧
    (containsSubstr "BOTH" (upperStr (stripStr reply)) = false →
     containsSubstr "HYBRID" (upperStr (stripStr reply)) = false →
     containsSubstr "SQL" (upperStr (stripStr reply)) = false →
     containsSubstr "RAG" (upperStr (stripStr reply)) = false →
     containsSubstr "NONE" (upperStr (stripStr reply)) = true →
      decideRoute question reply = none) ∧
    (containsSubstr "BOTH" (upperStr (stripStr reply)) = false →
     containsSubstr "HYBRID" (upperStr (stripStr reply)) = false →
     containsSubstr "SQL" (upperStr (stripStr reply)) = false →
     containsSubstr "RAG" (upperStr (stripStr reply)) = false →
     containsSubstr "NONE" (upperStr (stripStr reply)) = false →
      decideRoute question reply =
        (if looksStructured question && looksDocumentary question then some Route.HYBRID
         else if looksStructured question then some Route.SQL
         else if looksDocumentary question then some Route.RAG
         else none)) := by
  refine ⟨?_, ?_, ?_, ?_, ?_⟩
  · rintro (h | h) <;> simp [decideRoute, h]
  · intro h1 h2 h3
    simp [decideRoute, h1, h2, h3]
  · intro h1 h2 h3 h4
    simp [decideRoute, h1, h2, h3, h4]
  · intro h1 h2 h3 h4 h5
    simp [decideRoute, h1, h2, h3, h4, h5]
  · intro h1 h2 h3 h4 h5
    simp [decideRoute, h1, h2, h3, h4, h5]

/-- C3 witness: an explicit `NONE` reply on a documentary-sounding
question yields no route (the heuristic is not consulted). -/
theorem decide_route_precedence_witness :
    decideRoute "what does the warranty policy say?" "NONE" = none :=
  (decide_route_precedence "what does the warranty policy say?" "NONE").2.2.2.1
    (by decide) (by decide) (by decide) (by decide) (by decide)

/-- C4: in the Analytics pipeline, an invalid candidate is never executed
against the store — the validation failure is appended to the trace and
its text becomes the result fed to synthesis; a raising execution is
captured as an error-message result (the pipeline itself is a total
function and never raises); and in every case `sql_query` equals the
generated text and `citations` is empty. -/
theorem sql_pipeline_error_handling (genContent : String) (dbRun : Except String String) :
    (runSqlPipeline genContent dbRun).sqlQuery = postprocessGeneratedSql genContent ∧
    (runSqlPipeline genContent dbRun).citations = [] ∧
    ((validateSqlQuery (postprocessGeneratedSql genContent)).1 = false →
      (runSqlPipeline genContent dbRun).dbInvoked = false ∧
      (runSqlPipeline genContent dbRun).toolTrace =
        ["Route selected: SQL",
         "Generated SQL:\n" ++ postprocessGeneratedSql genContent,
         "SQL query validation failed: " ++
           (validateSqlQuery (postprocessGeneratedSql genContent)).2] ∧
      (runSqlPipeline genContent dbRun).rowsRepr =
        "SQL query validation failed: " ++
          (validateSqlQuery (postprocessGeneratedSql genContent)).2) ∧
    (∀ exc, (validateSqlQuery (postprocessGeneratedSql genContent)).1 = true →
      dbRun = Except.error exc →
      (runSqlPipeline genContent dbRun).dbInvoked = true ∧
      (runSqlPipeline genContent dbRun).rowsRepr = "SQL execution failed: " ++ exc) := by
  refine ⟨?_, ?_, ?_, ?_⟩
  · unfold runSqlPipeline
    by_cases hv : (validateSqlQuery (postprocessGeneratedSql genContent)).1 = true
    · cases dbRun <;> simp [hv]
    · simp only [Bool.not_eq_true] at hv
      cases dbRun <;> simp [hv]
  · unfold runSqlPipeline
    by_cases hv : (validateSqlQuery (postprocessGeneratedSql genContent)).1 = true
    · cases dbRun <;> simp [hv]
    · simp only [Bool.not_eq_true] at hv
      cases dbRun <;> simp [hv]
  · intro hv
    unfold runSqlPipeline
    cases dbRun <;> simp [hv]
  · intro exc hv hdb
    subst hdb
    unfold runSqlPipeline
    simp [hv]

/-- C4 witness: a forbidden generated query is not executed and its
validation failure is the synthesized-over result. -/
theorem sql_pipeline_error_handling_witness :
    (runSqlPipeline "DROP TABLE users;" (Except.ok "rows")).dbInvoked = false ∧
    (runSqlPipeline "SELECT 1" (Except.error "db down")).rowsRepr =
      "SQL execution failed: db down" :=
  ⟨((sql_pipeline_error_handling "DROP TABLE users;" (Except.ok "rows")).2.2.1 (by decide)).1,
   ((sql_pipeline_error_handling "SELECT 1" (Except.error "db down")).2.2.2 "db down"
      (by decide) rfl).2⟩

theorem recordMatches_increment_map (id today now : String) (r : RateLimitRecord) :
    recordMatches id today
      (if recordMatches id today r then
        { r with interactionCount := r.interactionCount + 1, lastInteractionAt := now }
      else r) = recordMatches id today r := by
  unfold recordMatches
  split <;> rfl

theorem getCount_increment (store : RateLimitStore) (id today now : String) :
    getDailyInteractionCount (incrementInteractionCount store id today now).1 id today =
      getDailyInteractionCount store id today + 1 := by
  unfold getDailyInteractionCount incrementInteractionCount
  cases hfind : store.find? (recordMatches id today) with
  | none =>
    simp only [hfind, Option.isSome_none, Bool.false_eq_true, if_false]
    rw [List.find?_append, hfind]
    simp [List.find?, recordMatches]
  | some r =>
    simp only [hfind, Option.isSome_some, if_true]
    rw [List.find?_map]
    have hcomp :
        (recordMatches id today ∘ fun r =>
          if recordMatches id today r then
            { r with interactionCount := r.interactionCount + 1, lastInteractionAt := now }
          else r) = recordMatches id today :=
      funext fun x => recordMatches_increment_map id today now x
    rw [hcomp, hfind]
    have hp := List.find?_some hfind
    simp [hp]

theorem increment_creates_at_one (store : RateLimitStore) (id today now : String)
    (h : store.find? (recordMatches id today) = none) :
    (incrementInteractionCount store id today now).1 =
      store ++ [⟨id, today, 1, now⟩] := by
  unfold incrementInteractionCount
  simp [h]

theorem getCount_recordN (store : RateLimitStore) (id today now : String)
    (h : store.find? (recordMatches id today) = none) :
    ∀ n, getDailyInteractionCount (recordN store id today now n) id today = n := by
  intro n
  induction n with
  | zero => simp [recordN, getDailyInteractionCount, h]
  | succ n ih =>
    show getDailyInteractionCount
      (incrementInteractionCount (recordN store id today now n) id today now).1 id today = n + 1
    rw [getCount_increment, ih]

theorem recordMatches_reset_map (id today id' date' : String) (r : RateLimitRecord) :
    recordMatches id' date'
      (if recordMatches id today r then { r with interactionCount := 0 } else r) =
    recordMatches id' date' r := by
  unfold recordMatches
  split <;> rfl

theorem getCount_reset_self (store : RateLimitStore) (id today : String) :
    getDailyInteractionCount (resetDailyCount store id today).1 id today = 0 := by
  unfold getDailyInteractionCount resetDailyCount
  rw [List.find?_map]
  have hcomp :
      (recordMatches id today ∘ fun r =>
        if recordMatches id today r then { r with interactionCount := 0 } else r) =
      recordMatches id today :=
    funext fun x => recordMatches_reset_map id today id today x
  rw [hcomp]
  cases hfind : store.find? (recordMatches id today) with
  | none => simp
  | some r =>
    have hp := List.find?_some hfind
    simp [hp]

theorem getCount_reset_other (store : RateLimitStore) (id today id' date' : String)
    (h : id' ≠ id ∨ date' ≠ today) :
    getDailyInteractionCount (resetDailyCount store id today).1 id' date' =
      getDailyInteractionCount store id' date' := by
  unfold getDailyInteractionCount resetDailyCount
  rw [List.find?_map]
  have hcomp :
      (recordMatches id' date' ∘ fun r =>
        if recordMatches id today r then { r with interactionCount := 0 } else r) =
      recordMatches id' date' :=
    funext fun x => recordMatches_reset_map id today id' date' x
  rw [hcomp]
  cases hfind : store.find? (recordMatches id' date') with
  | none => simp
  | some r =>
    have hp := List.find?_some hfind
    simp only [recordMatches, Bool.and_eq_true, decide_eq_true_eq] at hp
    have hnm : recordMatches id today r = false := by
      rcases h with h | h <;> simp [recordMatches, hp.1, hp.2, h]
    simp [hnm]

/-- C5: `record` called `n` times for the same identifier and date
yields a stored count of `n` (the record is created lazily at 1 on the
first call); after 20 calls, `check` with daily limit 20 fails with a
`QuotaExceeded` carrying `current_count = 20` and `limit = 20` (`check`
fails exactly when the current count reaches the limit); and `reset`
zeroes the count for the current date only, leaving any other
`(identifier, date)` count unchanged. -/
theorem rate_limiter_count_check_reset :
    (∀ (store : RateLimitStore) (id today now : String),
      store.find? (recordMatches id today) = none →
      (incrementInteractionCount store id today now).1 =
        store ++ [⟨id, today, 1, now⟩]) ∧
    (∀ (store : RateLimitStore) (id today now : String) (n : Nat),
      store.find? (recordMatches id today) = none →
      getDailyInteractionCount (recordN store id today now n) id today = n) ∧
    (∀ (store : RateLimitStore) (id today : String) (dailyLimit : Nat),
      checkRateLimit store id today dailyLimit =
        (if dailyLimit ≤ getDailyInteractionCount store id today then
          some ⟨id, getDailyInteractionCount store id today, dailyLimit⟩
         else none)) ∧
    (∀ (store : RateLimitStore) (id today now : String),
      store.find? (recordMatches id today) = none →
      checkRateLimit (recordN store id today now 20) id today 20 =
        some ⟨id, 20, 20⟩) ∧
    (∀ (store : RateLimitStore) (id today : String),
      getDailyInteractionCount (resetDailyCount store id today).1 id today = 0 ∧
      ∀ id' date', id' ≠ id ∨ date' ≠ today →
        getDailyInteractionCount (resetDailyCount store id today).1 id' date' =
          getDailyInteractionCount store id' date') := by
  refine ⟨increment_creates_at_one,
          fun store id today now n h => getCount_recordN store id today now h n,
          ?_, ?_, ?_⟩
  · intro store id today dailyLimit
    unfold checkRateLimit
    rfl
  · intro store id today now h
    simp [checkRateLimit, getCount_recordN store id today now h 20]
  · intro store id today
    exact ⟨getCount_reset_self store id today,
           fun id' date' h => getCount_reset_other store id today id' date' h⟩

/-- C5 witness: the concrete 20-call scenario from the empty store. -/
theorem rate_limiter_count_check_reset_witness :
    checkRateLimit (recordN [] "203.0.113.7" "2026-10-12" "t0" 20)
      "203.0.113.7" "2026-10-12" 20 =
      some ⟨"203.0.113.7", 20, 20⟩ :=
  rate_limiter_count_check_reset.2.2.2.1 [] "203.0.113.7" "2026-10-12" "t0" rfl

/-- C6: for every hybrid run in which both legs complete, the final trace
is the split-decision entries, followed by all of the Analytics leg's
trace entries and then all of the Retrieval leg's trace entries in their
original order (and the closing synthesis entry); the hybrid citations
are exactly the Retrieval leg's and its `sql_query` exactly the Analytics
leg's. -/
theorem hybrid_trace_and_inheritance (question splitSql splitRag genContent : String)
    (dbRun : Except String String) (docs : List Doc) :
    (runHybridPipeline question splitSql splitRag genContent dbRun docs).toolTrace =
      ["Router decision: HYBRID",
       "Hybrid split -> SQL question: " ++ (if splitSql = "" then question else splitSql),
       "Hybrid split -> RAG question: " ++ (if splitRag = "" then question else splitRag)]
      ++ (runSqlPipeline genContent dbRun).toolTrace
      ++ (runRagPipeline (if splitRag = "" then question else splitRag) docs).toolTrace
      ++ ["Hybrid synthesis completed"] ∧
    (runHybridPipeline question splitSql splitRag genContent dbRun docs).citations =
      (runRagPipeline (if splitRag = "" then question else splitRag) docs).citations ∧
    (runHybridPipeline question splitSql splitRag genContent dbRun docs).sqlQuery =
      some (runSqlPipeline genContent dbRun).sqlQuery :=
  ⟨rfl, rfl, rfl⟩

/-- C8: a failing external LLM call is not swallowed — a failed routing
classification propagates out of `run_agent` uncaught (no result is
produced), and a failure of either hybrid leg propagates to the
`asyncio.gather` fan-in join and aborts the whole hybrid run, so no
answer is merged from the surviving leg. -/
theorem llm_failure_propagates :
    (∀ (question e : String) (sqlOutcome : Except String SqlPipelineResult)
       (ragOutcome : Except String RagPipelineResult)
       (hybridOutcome : Except String HybridResult),
      runAgentE question (Except.error e) sqlOutcome ragOutcome hybridOutcome =
        Except.error e) ∧
    (∀ (sqlQuestion ragQuestion e : String)
       (ragLeg : Except String RagPipelineResult),
      runHybridPipelineE sqlQuestion ragQuestion (Except.error e) ragLeg =
        Except.error e) ∧
    (∀ (sqlQuestion ragQuestion e : String) (sqlResult : SqlPipelineResult),
      runHybridPipelineE sqlQuestion ragQuestion (Except.ok sqlResult) (Except.error e) =
        Except.error e) := by
  refine ⟨fun question e sqlOutcome ragOutcome hybridOutcome => rfl,
          fun sqlQuestion ragQuestion e ragLeg => ?_,
          fun sqlQuestion ragQuestion e sqlResult => rfl⟩
  cases ragLeg <;> rfl

theorem sanitize_mem_labels (source : String) :
    sanitizeDocumentSource source ∈
      ["Contract Document", "Manual Document", "Policy Document",
       "Policy Appendix", "Document"] := by
  simp only [sanitizeDocumentSource]
  repeat' split
  all_goals simp

/-- C7: every citation built from a retrieved document carries one of the
five generic document-category labels as its `source_document` (so the
raw file path or name never appears there), and the label is determined
by keyword matching on the raw source string with the source's
precedence: contract, then manual/model-name tokens, then
warranty/policy, then appendix, else the generic label. -/
theorem citations_sanitize_sources :
    (∀ (docs : List Doc), ∀ c ∈ buildCitations docs,
      c.sourceDocument ∈
        ["Contract Document", "Manual Document", "Policy Document",
         "Policy Appendix", "Document"]) ∧
    (∀ source, containsSubstr "contract" (lowerStr source) = true →
      sanitizeDocumentSource source = "Contract Document") ∧
    (∀ source, containsSubstr "contract" (lowerStr source) = false →
      (containsSubstr "manual" (lowerStr source) = true ∨
       containsSubstr "rav4" (lowerStr source) = true ∨
       containsSubstr "yaris" (lowerStr source) = true) →
      sanitizeDocumentSource source = "Manual Document") ∧
    (∀ source, containsSubstr "contract" (lowerStr source) = false →
      containsSubstr "manual" (lowerStr source) = false →
      containsSubstr "rav4" (lowerStr source) = false →
      containsSubstr "yaris" (lowerStr source) = false →
      (containsSubstr "warranty" (lowerStr source) = true ∨
       containsSubstr "policy" (lowerStr source) = true) →
      sanitizeDocumentSource source = "Policy Document") ∧
    (∀ source, containsSubstr "contract" (lowerStr source) = false →
      containsSubstr "manual" (lowerStr source) = false →
      containsSubstr "rav4" (lowerStr source) = false →
      containsSubstr "yaris" (lowerStr source) = false →
      containsSubstr "warranty" (lowerStr source) = false →
      containsSubstr "policy" (lowerStr source) = false →
      containsSubstr "appendix" (lowerStr source) = true →
      sanitizeDocumentSource source = "Policy Appendix") ∧
    (∀ source, containsSubstr "contract" (lowerStr source) = false →
      containsSubstr "manual" (lowerStr source) = false →
      containsSubstr "rav4" (lowerStr source) = false →
      containsSubstr "yaris" (lowerStr source) = false →
      containsSubstr "warranty" (lowerStr source) = false →
      containsSubstr "policy" (lowerStr source) = false →
      containsSubstr "appendix" (lowerStr source) = false →
      sanitizeDocumentSource source = "Document") ∧
    (∀ (docs : List Doc) (doc : Doc), doc ∈ docs →
      ({ sourceDocument :=
           if rawSourceOf doc.metadata = "" then "Document"
           else sanitizeDocumentSource (rawSourceOf doc.metadata)
         page := doc.metadata.page
         content := doc.pageContent } : Citation) ∈ buildCitations docs) := by
  refine ⟨?_, ?_, ?_, ?_, ?_, ?_, ?_⟩
  · intro docs c hc
    obtain ⟨doc, _, rfl⟩ := List.mem_map.mp hc
    by_cases hraw : rawSourceOf doc.metadata = ""
    · simp [hraw]
    · simp only [hraw, if_false]
      exact sanitize_mem_labels (rawSourceOf doc.metadata)
  · intro source h
    simp [sanitizeDocumentSource, h]
  · intro source h1 h2
    rcases h2 with h2 | h2 | h2 <;> simp [sanitizeDocumentSource, h1, h2]
  · intro source h1 h2 h3 h4 h5
    rcases h5 with h5 | h5 <;> simp [sanitizeDocumentSource, h1, h2, h3, h4, h5]
  · intro source h1 h2 h3 h4 h5 h6 h7
    simp [sanitizeDocumentSource, h1, h2, h3, h4, h5, h6, h7]
  · intro source h1 h2 h3 h4 h5 h6 h7
    simp [sanitizeDocumentSource, h1, h2, h3, h4, h5, h6, h7]
  · intro docs doc hdoc
    exact List.mem_map.mpr ⟨doc, hdoc, rfl⟩

/-- C7 witness: concrete sanitizations drawn from the general rules. -/
theorem citations_sanitize_sources_witness :
    sanitizeDocumentSource "Contract_Toyota_2023.pdf" = "Contract Document" ∧
    sanitizeDocumentSource "Toyota_RAV4.txt" = "Manual Document" ∧
    sanitizeDocumentSource "Warranty_Policy_Appendix.pdf" = "Policy Document" :=
  ⟨citations_sanitize_sources.2.1 "Contract_Toyota_2023.pdf" (by decide),
   citations_sanitize_sources.2.2.1 "Toyota_RAV4.txt" (by decide) (Or.inr (Or.inl (by decide))),
   citations_sanitize_sources.2.2.2.1 "Warranty_Policy_Appendix.pdf"
     (by decide) (by decide) (by decide) (by decide) (Or.inl (by decide))⟩

theorem takeWhile_until_period (p r : List Char) (h : '.' ∉ p) :
    (p ++ '.' :: r).takeWhile (· != '.') = p := by
  induction p with
  | nil => simp
  | cons c cs ih =>
    have hc : c ≠ '.' := fun hc => h (hc ▸ List.mem_cons_self c cs)
    have hcs : '.' ∉ cs := fun hm => h (List.mem_cons_of_mem c hm)
    simp [List.takeWhile_cons, hc, ih hcs]

theorem answerPreview_of_period (p r : String) (h : '.' ∉ p.data) :
    answerPreview (p ++ "." ++ r) = p := by
  have hdata : (p ++ "." ++ r).data = p.data ++ '.' :: r.data := by
    simp [String.data_append]
  have hne : (p ++ "." ++ r) ≠ "" := by
    intro heq
    have hd : (p ++ "." ++ r).data = ([] : List Char) := by rw [heq]
    rw [hdata] at hd
    simp at hd
  unfold answerPreview
  rw [if_neg hne, hdata, takeWhile_until_period p.data r.data h]

/-- C10: the transcript renderer truncates stored answers — for an
exchange whose answer contains a period, only the portion before the
first `.` appears on the `Assistant:` line, while the question appears in
full on the `User:` line. -/
theorem transcript_truncates_answers :
    (∀ (idx : Nat) (question p r : String), '.' ∉ p.data →
      exchangeLines idx question (p ++ "." ++ r) =
        ["\n[Exchange " ++ toString idx ++ "]",
         "User: " ++ question,
         "Assistant: " ++ p]) ∧
    (∀ (idx : Nat) (question answer : String),
      exchangeLines idx question answer =
        ["\n[Exchange " ++ toString idx ++ "]",
         "User: " ++ question,
         "Assistant: " ++ answerPreview answer]) := by
  constructor
  · intro idx question p r h
    simp [exchangeLines, answerPreview_of_period p r h]
  · intro idx question answer
    rfl

/-- C10 witness: a concrete two-sentence answer is cut at its first
period. -/
theorem transcript_truncates_answers_witness :
    exchangeLines 1 "total sales?" ("Total sales were 120" ++ "." ++ " Details follow.") =
      ["\n[Exchange 1]", "User: total sales?", "Assistant: Total sales were 120"] :=
  transcript_truncates_answers.1 1 "total sales?" "Total sales were 120" " Details follow."
    (by decide)

theorem fresh_session_store (store : ConversationStore) (freshId : String) (now : Int)
    (question answer : String) (h : storeLookup store freshId = none) :
    (getOrCreateSession store none freshId now).2 = freshId ∧
    addExchangeStore (getOrCreateSession store none freshId now).1 freshId question answer =
      store ++ [(freshId, ⟨freshId, now, [(question, answer)]⟩)] := by
  have hfind : (store.find? fun p => p.1 = freshId) = none := by
    unfold storeLookup at h
    exact Option.map_eq_none'.mp h
  have hgoc : getOrCreateSession store none freshId now =
      (store ++ [(freshId, ⟨freshId, now, []⟩)], freshId) := by
    unfold getOrCreateSession dictInsert
    simp [hfind]
  refine ⟨by rw [hgoc], ?_⟩
  rw [hgoc]
  unfold addExchangeStore
  have hlook2 : storeLookup (store ++ [(freshId, ⟨freshId, now, []⟩)]) freshId =
      some ⟨freshId, now, []⟩ := by
    unfold storeLookup
    rw [List.find?_append, hfind]
    simp [List.find?]
  simp only [hlook2, Option.isSome_some, if_true]
  rw [List.map_append]
  congr 1
  · have hid : ∀ p ∈ store,
        (if p.1 = freshId then (p.1, p.2.addExchange question answer) else p) = p := by
      intro p hp
      have hne : ¬ (p.1 = freshId) := by
        have := List.find?_eq_none.mp hfind p hp
        simpa using this
      simp [hne]
    rw [List.map_congr_left hid]
    simp
  · simp [ConversationHistory.addExchange]

theorem format_single_exchange (sid : String) (created : Int) (question answer : String) :
    ConversationHistory.formatForPrompt ⟨sid, created, [(question, answer)]⟩ 10 =
      ("=== PREVIOUS CONVERSATION CONTEXT ===" ++ "\n" ++
        ("\n[Exchange " ++ toString (1 : Nat) ++ "]") ++ "\n" ++ "User: ")
      ++ question ++
      ("\n" ++ ("Assistant: " ++ answerPreview answer) ++ "\n" ++
        joinWith "\n" contextRules) := by
  unfold ConversationHistory.formatForPrompt ConversationHistory.getHistory lastPairs
  apply String.ext
  set_option maxRecDepth 4096 in
  simp [renderExchanges, exchangeLines, joinWith, contextRules,
    String.data_append, List.append_assoc]

theorem find?_filter_of_fresh (now ttl : Int) (sid : String) :
    ∀ (l : ConversationStore) (pr : String × ConversationHistory),
      (l.find? fun q => q.1 = sid) = some pr →
      ¬ (now - pr.2.createdAt > ttl) →
      ((l.filter fun q => ¬ (now - q.2.createdAt > ttl)).find? fun q => q.1 = sid) =
        some pr := by
  intro l
  induction l with
  | nil => intro pr h1 _; simp at h1
  | cons p rest ih =>
    intro pr h1 h2
    rw [List.filter_cons]
    by_cases hp : p.1 = sid
    · have hpr : p = pr := by
        rw [List.find?_cons_of_pos _ (by simpa using hp)] at h1
        exact Option.some.inj h1
      subst hpr
      rw [if_pos (decide_eq_true h2), List.find?_cons_of_pos _ (by simpa using hp)]
    · have h1' : (rest.find? fun q => q.1 = sid) = some pr := by
        rwa [List.find?_cons_of_neg _ (by simpa using hp)] at h1
      by_cases hk : now - p.2.createdAt > ttl
      · rw [if_neg (by simp only [decide_eq_true_eq, not_not]; exact hk)]
        exact ih pr h1' h2
      · rw [if_pos (decide_eq_true hk), List.find?_cons_of_neg _ (by simpa using hp)]
        exact ih pr h1' h2

/-- C9: after `get_or_create(None)` yields the fresh id, an
`add_exchange` followed by `format_for_prompt` on the same id produces a
transcript containing the question text verbatim; `sweep_expired` removes
exactly the sessions whose age exceeds the TTL and returns the number
removed; a session whose age does not exceed the TTL is retained and
still resolvable afterwards. -/
theorem conversation_memory_lifecycle :
    (∀ (store : ConversationStore) (freshId : String) (now : Int)
       (question answer : String),
      storeLookup store freshId = none →
      (getOrCreateSession store none freshId now).2 = freshId ∧
      ∃ A B, getHistoryForPrompt
          (addExchangeStore (getOrCreateSession store none freshId now).1
            freshId question answer) freshId = A ++ question ++ B) ∧
    (∀ (store : ConversationStore) (now ttl : Int),
      (cleanupExpiredSessions store now ttl).2 =
        (store.filter fun p => now - p.2.createdAt > ttl).length ∧
      ∀ sid h', (sid, h') ∈ (cleanupExpiredSessions store now ttl).1 ↔
        (sid, h') ∈ store ∧ now - h'.createdAt ≤ ttl) ∧
    (∀ (store : ConversationStore) (now ttl : Int) (sid : String)
       (h' : ConversationHistory),
      storeLookup store sid = some h' → now - h'.createdAt ≤ ttl →
      storeLookup (cleanupExpiredSessions store now ttl).1 sid = some h') := by
  refine ⟨?_, ?_, ?_⟩
  · intro store freshId now question answer h
    obtain ⟨hid, hstore⟩ := fresh_session_store store freshId now question answer h
    refine ⟨hid, ?_⟩
    rw [hstore]
    have hfind : (store.find? fun p => p.1 = freshId) = none := by
      unfold storeLookup at h
      exact Option.map_eq_none'.mp h
    have hlook : storeLookup
        (store ++ [(freshId, ⟨freshId, now, [(question, answer)]⟩)]) freshId =
        some ⟨freshId, now, [(question, answer)]⟩ := by
      unfold storeLookup
      rw [List.find?_append, hfind]
      simp [List.find?]
    refine ⟨"=== PREVIOUS CONVERSATION CONTEXT ===" ++ "\n" ++
        ("\n[Exchange " ++ toString (1 : Nat) ++ "]") ++ "\n" ++ "User: ",
      "\n" ++ ("Assistant: " ++ answerPreview answer) ++ "\n" ++
        joinWith "\n" contextRules, ?_⟩
    unfold getHistoryForPrompt
    rw [hlook]
    exact format_single_exchange freshId now question answer
  · intro store now ttl
    constructor
    · rfl
    · intro sid h'
      simp only [cleanupExpiredSessions, List.mem_filter, decide_eq_true_eq, not_lt]
  · intro store now ttl sid h' hl hfresh
    unfold storeLookup at hl
    obtain ⟨pr, hpr, hsnd⟩ := Option.map_eq_some'.mp hl
    unfold cleanupExpiredSessions storeLookup
    rw [find?_filter_of_fresh now ttl sid store pr hpr (by rw [hsnd]; omega)]
    simpa using hsnd

/-- C9 witness: the fresh-session scenario at a concrete store. -/
theorem conversation_memory_lifecycle_witness :
    (getOrCreateSession ([] : ConversationStore) none "sid-1" 0).2 = "sid-1" ∧
    ∃ A B, getHistoryForPrompt
        (addExchangeStore (getOrCreateSession ([] : ConversationStore) none "sid-1" 0).1
          "sid-1" "what are sales?" "fine") "sid-1" = A ++ "what are sales?" ++ B :=
  conversation_memory_lifecycle.1 [] "sid-1" 0 "what are sales?" "fine" rfl
